import Mathlib

/-!
Shallow embedding of `src/roscopter/src/waypoint_manager/waypoint_manager.py`
(class `WaypointManager`).

Modelling conventions:
* Python floats are modelled as real numbers (`ℝ`); Python `int` as `ℤ`.
* A waypoint is modelled as the Python list of its numeric components
  (`List ℝ`), since the source stores waypoints as plain lists of 3 or 4
  numbers.
* Python list primitives (`insert`, `del`, indexing) are modelled with
  Python's negative-index semantics; `del`/indexing on an out-of-range
  index raises `IndexError`, modelled by `Option`/an explicit error case.
* Each ROS service callback becomes a function from the manager state and
  the request to the new state, the returned value, and the messages
  published during the call.  A bare Python `return` (no value) and an
  uncaught exception are distinguished constructors of the result type.
-/

namespace WaypointManager

/-- Effective position used by Python `list.insert(i, x)` on a list of
length `n`: a negative `i` counts from the end and clamps at `0`; a
positive `i` clamps at `n`. -/
def pyInsertPos (n : ℕ) (i : ℤ) : ℕ :=
  if i < 0 then (i + n).toNat else min i.toNat n

/-- Python `list.insert(i, x)`. Always succeeds and inserts exactly one
element. -/
def pyInsert (l : List α) (i : ℤ) (x : α) : List α :=
  l.insertIdx (pyInsertPos l.length i) x

/-- Effective position used by Python indexing / `del l[i]` on a list of
length `n`: valid iff `-n ≤ i < n`, a negative `i` counting from the end.
`none` models an `IndexError`. -/
def pyIdxPos (n : ℕ) (i : ℤ) : Option ℕ :=
  if 0 ≤ i then
    if i < (n : ℤ) then some i.toNat else none
  else
    if 0 ≤ i + n then some (i + n).toNat else none

/-- Python `l[i]` (single-element indexing). `none` models `IndexError`. -/
def pyGet (l : List α) (i : ℤ) : Option α :=
  (pyIdxPos l.length i).bind fun k => l.get? k

/-- Python `del l[i]`. `none` models `IndexError`. -/
def pyDel (l : List α) (i : ℤ) : Option (List α) :=
  (pyIdxPos l.length i).map fun k => l.eraseIdx k

/-- The mutable fields of the `WaypointManager` object: the waypoint list
and the current index, plus the two configuration parameters fixed at
construction (`~cycle`, `~threshold`). -/
structure WPState where
  waypoint_list : List (List ℝ)
  current_waypoint_index : ℤ
  cyclical_path : Bool
  threshold : ℝ

/-- `wrapWaypointIndex(self)`: in cyclical mode the index is reduced
modulo the list length (Python `%`, which for a positive modulus agrees
with `Int.emod`); otherwise the index is decremented once whenever it is
at or past the end. -/
def wrapWaypointIndex (s : WPState) : WPState :=
  if s.cyclical_path then
    { s with current_waypoint_index :=
        s.current_waypoint_index % (s.waypoint_list.length : ℤ) }
  else
    if s.current_waypoint_index ≥ (s.waypoint_list.length : ℤ) then
      { s with current_waypoint_index := s.current_waypoint_index - 1 }
    else s

/-- The `rosflight_msgs/Command` fields set by `pubNextWaypoint` (the
timestamp and the constant mode tag are omitted; every published command
carries `mode = MODE_XPOS_YPOS_YAW_ALTITUDE`). -/
structure Command where
  x : ℝ
  y : ℝ
  F : ℝ
  z : ℝ

/-- Body of `pubNextWaypoint` given the list entry it reads:
`x, y, F` are the first three components, `z` is the fourth when present
else `0`.  `none` models the `IndexError` raised when the waypoint has
fewer than three components. -/
def commandOfWaypoint (wp : List ℝ) : Option Command :=
  match wp with
  | a :: b :: c :: rest =>
      some { x := a, y := b, F := c,
             z := match rest with
                  | d :: _ => d
                  | [] => 0 }
  | _ => none

/-- `pubNextWaypoint(self)`: reads `waypoint_list[current_waypoint_index]`
and publishes the command built from it.  `none` models an uncaught
`IndexError` (bad index or too-short waypoint), in which case nothing is
published. -/
def pubNextWaypoint (s : WPState) : Option Command :=
  (pyGet s.waypoint_list s.current_waypoint_index).bind commandOfWaypoint

/-- Request of the `AddWaypoint` service. -/
structure AddReq where
  x : ℝ
  y : ℝ
  z : ℝ
  psi : ℝ
  index : ℤ

/-- Value returned by `addWaypointCallback`. `indexOutOfRange` is the
bare `return` on the "Waypoint Index Out of Range" branch; `ok` carries
`len(self.waypoint_list)` after the insertion. -/
inductive AddResult where
  | indexOutOfRange
  | ok (newLength : ℕ)
  deriving DecidableEq

/-- Shared tail of `addWaypointCallback` once the insertion index has been
computed: insert, then bump `current_waypoint_index` when it is at or past
the insertion index. -/
def addInsert (s : WPState) (index : ℤ) (new_waypoint : List ℝ) :
    WPState × AddResult :=
  let wl := pyInsert s.waypoint_list index new_waypoint
  let ci :=
    if s.current_waypoint_index ≥ index then s.current_waypoint_index + 1
    else s.current_waypoint_index
  ({ s with waypoint_list := wl, current_waypoint_index := ci },
   AddResult.ok wl.length)

/-- `addWaypointCallback(self, req)`: `-1` is the append sentinel; an
index strictly greater than the length is rejected; any other index
(including other negative indices) is passed to `list.insert`. -/
def addWaypointCallback (s : WPState) (req : AddReq) : WPState × AddResult :=
  let new_waypoint : List ℝ := [req.x, req.y, req.z, req.psi]
  if req.index = -1 then
    addInsert s (s.waypoint_list.length : ℤ) new_waypoint
  else if req.index > (s.waypoint_list.length : ℤ) then
    (s, AddResult.indexOutOfRange)
  else
    addInsert s req.index new_waypoint

/-- Value returned by `removeWaypointCallback`.  `cannotRemoveLast`
carries the (unchanged) length returned on the "Cannot Remove Only
Waypoint" branch; `indexOutOfRange` is the bare `return`; `exn` models an
uncaught `IndexError` (from `del` on an index below `-len`, or from
`pubNextWaypoint` on a too-short waypoint); `ok` carries the new
length. -/
inductive RemoveResult where
  | cannotRemoveLast (length : ℕ)
  | indexOutOfRange
  | exn
  | ok (newLength : ℕ)
  deriving DecidableEq

/-- `removeWaypointCallback(self, req)`.  The third component is the
command published by `pubNextWaypoint` when the current waypoint was
removed (`none` when nothing is published). -/
def removeWaypointCallback (s : WPState) (index : ℤ) :
    WPState × RemoveResult × Option Command :=
  if s.waypoint_list.length = 1 then
    (s, RemoveResult.cannotRemoveLast s.waypoint_list.length, none)
  else if index ≥ (s.waypoint_list.length : ℤ) then
    (s, RemoveResult.indexOutOfRange, none)
  else
    match pyDel s.waypoint_list index with
    | none => (s, RemoveResult.exn, none)
    | some wl =>
      if index = s.current_waypoint_index then
        let s1 := wrapWaypointIndex { s with waypoint_list := wl }
        match pubNextWaypoint s1 with
        | none => (s1, RemoveResult.exn, none)
        | some c => (s1, RemoveResult.ok wl.length, some c)
      else if s.current_waypoint_index ≥ (wl.length : ℤ) then
        ({ s with waypoint_list := wl,
                  current_waypoint_index := s.current_waypoint_index - 1 },
         RemoveResult.ok wl.length, none)
      else
        ({ s with waypoint_list := wl }, RemoveResult.ok wl.length, none)

/-- `listWaypoints(self, req)`: prints the waypoint list to the console
and returns `True`.  The second component is the console output of the
`print`, the third the returned value. -/
def listWaypoints (s : WPState) : WPState × List (List ℝ) × Bool :=
  (s, s.waypoint_list, true)

/-- The pose fields of a `nav_msgs/Odometry` message read by
`odometryCallback`: position and orientation quaternion. -/
structure Odom where
  px : ℝ
  py : ℝ
  pz : ℝ
  qw : ℝ
  qx : ℝ
  qy : ℝ
  qz : ℝ

/-- The fields of a `roscopter_msgs/RelativePose` message. -/
structure RelativePose where
  x : ℝ
  y : ℝ
  z : ℝ
  F : ℝ

/-- `numpy.arctan2 y x`: the angle of the point `(x, y)` in `(-π, π]`,
with `atan2 0 0 = 0`, modelled by the argument of the complex number
`x + y*I`. -/
noncomputable def atan2 (y x : ℝ) : ℝ :=
  Complex.arg ⟨x, y⟩

/-- Yaw extracted from the quaternion `(w, x, y, z)` exactly as in
`odometryCallback`: `arctan2(2*(qw*qz + qx*qy), 1 - 2*(qy**2 + qz**2))`. -/
noncomputable def yawOfQuat (qw qx qy qz : ℝ) : ℝ :=
  atan2 (2 * (qw * qz + qx * qy)) (1 - 2 * (qy ^ 2 + qz ^ 2))

/-- `np.linalg.norm(current_position - current_waypoint[0:3])` for a
3-vector `cp` and waypoint components `wx, wy, wz`. -/
noncomputable def normErr (cp : ℝ × ℝ × ℝ) (wx wy wz : ℝ) : ℝ :=
  Real.sqrt ((cp.1 - wx) ^ 2 + (cp.2.1 - wy) ^ 2 + (cp.2.2 - wz) ^ 2)

/-- `odometryCallback(self, msg)`.  The second component is the
`RelativePose` published on every sample, the third the `Command`
published by `pubNextWaypoint` on advancement (`none` otherwise).  A
waypoint with fewer than three components is malformed (the data model
fixes 3 or 4 components); there the numpy subtraction has mismatched
shapes and the callback is modelled as raising before publishing
anything. -/
noncomputable def odometryCallback (s : WPState) (msg : Odom) :
    WPState × Option RelativePose × Option Command :=
  match pyGet s.waypoint_list s.current_waypoint_index with
  | none => (s, none, none)
  | some current_waypoint =>
    match current_waypoint.take 3 with
    | [wx, wy, wz] =>
      let current_position : ℝ × ℝ × ℝ := (msg.px, msg.py, -msg.pz)
      let y := yawOfQuat msg.qw msg.qx msg.qy msg.qz
      let error := normErr current_position wx wy wz
      let rel : RelativePose :=
        { x := current_position.1, y := current_position.2.1,
          z := y, F := current_position.2.2 }
      if error < s.threshold then
        let s1 := wrapWaypointIndex
          { s with current_waypoint_index := s.current_waypoint_index + 1 }
        (s1, some rel, pubNextWaypoint s1)
      else
        (s, some rel, none)
    | _ => (s, none, none)

/-- One serviced event: one of the list services or a position sample.
(`setWaypointsFromFileCallback` is unimplemented in the source and
mutates nothing, so it is not a distinct step.) -/
inductive Step : WPState → WPState → Prop
  | add (s : WPState) (req : AddReq) : Step s (addWaypointCallback s req).1
  | remove (s : WPState) (index : ℤ) :
      Step s (removeWaypointCallback s index).1
  | list (s : WPState) : Step s (listWaypoints s).1
  | odom (s : WPState) (msg : Odom) : Step s (odometryCallback s msg).1

/-- States reachable from a start state with a non-empty initial list and
`current_waypoint_index = 0`, as set up in `__init__`. -/
inductive Reachable : WPState → Prop
  | init (s : WPState) (hne : s.waypoint_list ≠ [])
      (h0 : s.current_waypoint_index = 0) : Reachable s
  | step {s t : WPState} (hs : Reachable s) (hst : Step s t) : Reachable t

/-- The state invariant: the current index is a valid (non-negative)
position in a non-empty waypoint list. -/
def Inv (s : WPState) : Prop :=
  0 ≤ s.current_waypoint_index ∧
    s.current_waypoint_index < (s.waypoint_list.length : ℤ) ∧
    1 ≤ s.waypoint_list.length

/-- Every stored waypoint has at least its three positional components
(the data model allows 3 or 4 components). -/
def WellFormed (s : WPState) : Prop :=
  ∀ wp ∈ s.waypoint_list, 3 ≤ wp.length

/-- The insertion index computed at the top of `addWaypointCallback`:
the append sentinel `-1` becomes `len(self.waypoint_list)`, any other
index is passed through. -/
def insertionIndex (s : WPState) (req : AddReq) : ℤ :=
  if req.index = -1 then (s.waypoint_list.length : ℤ) else req.index

/-- A one-waypoint state (cyclical, threshold 5). -/
def sOne : WPState := ⟨[[0, 0, 10]], 0, true, 5⟩

/-- A two-waypoint state (cyclical, threshold 5). -/
def sTwo : WPState := ⟨[[0, 0, 10], [5, 5, 10]], 0, true, 5⟩

/-- The three-waypoint state of spec scenario B, currently targeting
index 1. -/
def sThree : WPState := ⟨[[0, 0, 10], [5, 5, 10], [10, 10, 10]], 1, true, 1⟩

/-- A non-cyclical state whose index has just advanced past the end. -/
def sClamp : WPState := ⟨[[0, 0, 10], [5, 5, 10]], 2, false, 5⟩

/-- A position sample at `(0, 0, -10)` (sign-adjusted altitude `10`) with
the identity orientation. -/
def msgW : Odom := ⟨0, 0, -10, 1, 0, 0, 0⟩

/-- An AddWaypoint request with the negative, non-sentinel index `-2`. -/
def reqNeg : AddReq := ⟨1, 2, 3, 4, -2⟩

/-- An AddWaypoint request with index `5` (out of range on short lists). -/
def reqBig : AddReq := ⟨1, 2, 3, 4, 5⟩

/-- An AddWaypoint request inserting at index `0` (spec scenario C). -/
def reqFront : AddReq := ⟨1, 1, 1, 0, 0⟩

/-- The three-waypoint state of spec scenario C, targeting index 0. -/
def sFront : WPState := ⟨[[0, 0, 10], [5, 5, 10], [10, 10, 10]], 0, true, 1⟩

section Helpers

theorem pyInsertPos_le (n : ℕ) (i : ℤ) : pyInsertPos n i ≤ n := by
  unfold pyInsertPos
  split
  · omega
  · exact min_le_right _ _

theorem length_pyInsert (l : List α) (i : ℤ) (x : α) :
    (pyInsert l i x).length = l.length + 1 :=
  List.length_insertIdx _ _ (pyInsertPos_le _ _)

theorem pyIdxPos_lt {n : ℕ} {i : ℤ} {k : ℕ} (h : pyIdxPos n i = some k) :
    k < n := by
  unfold pyIdxPos at h
  split at h <;> split at h <;> simp_all <;> omega

theorem pyIdxPos_of_nonneg {n : ℕ} {i : ℤ} (h0 : 0 ≤ i) (h1 : i < (n : ℤ)) :
    pyIdxPos n i = some i.toNat := by
  unfold pyIdxPos
  rw [if_pos h0, if_pos h1]

theorem pyIdxPos_of_neg {n : ℕ} {i : ℤ} (h0 : i < 0) (h1 : 0 ≤ i + n) :
    pyIdxPos n i = some (i + n).toNat := by
  unfold pyIdxPos
  rw [if_neg (by omega), if_pos h1]

theorem pyGet_eq_get? {l : List α} {i : ℤ} (h0 : 0 ≤ i)
    (h1 : i < (l.length : ℤ)) : pyGet l i = l.get? i.toNat := by
  unfold pyGet
  rw [pyIdxPos_of_nonneg h0 h1]
  rfl

theorem pyGet_isSome {l : List α} {i : ℤ} (h0 : 0 ≤ i)
    (h1 : i < (l.length : ℤ)) : ∃ x, pyGet l i = some x ∧ x ∈ l := by
  rw [pyGet_eq_get? h0 h1]
  have hk : i.toNat < l.length := by omega
  exact ⟨l.get ⟨i.toNat, hk⟩, List.get?_eq_get hk, List.get_mem _ _ _⟩

theorem pyDel_of_nonneg {l : List α} {i : ℤ} (h0 : 0 ≤ i)
    (h1 : i < (l.length : ℤ)) : pyDel l i = some (l.eraseIdx i.toNat) := by
  unfold pyDel
  rw [pyIdxPos_of_nonneg h0 h1]
  rfl

theorem pyDel_length {l : List α} {i : ℤ} {l2 : List α}
    (h : pyDel l i = some l2) : l2.length + 1 = l.length := by
  unfold pyDel at h
  rcases hk : pyIdxPos l.length i with _ | k
  · rw [hk] at h
    simp at h
  · rw [hk] at h
    simp only [Option.map_some', Option.some.injEq] at h
    subst h
    exact List.length_eraseIdx_add_one (pyIdxPos_lt hk)

theorem three_le_shape {wp : List α} (h : 3 ≤ wp.length) :
    ∃ a b c t, wp = a :: b :: c :: t := by
  rcases wp with _ | ⟨a, _ | ⟨b, _ | ⟨c, t⟩⟩⟩ <;> simp at h
  exact ⟨a, b, c, t, rfl⟩

theorem commandOfWaypoint_isSome {wp : List ℝ} (h : 3 ≤ wp.length) :
    ∃ c, commandOfWaypoint wp = some c := by
  obtain ⟨a, b, c, t, rfl⟩ := three_le_shape h
  exact ⟨_, rfl⟩

theorem wrapWaypointIndex_waypoint_list (s : WPState) :
    (wrapWaypointIndex s).waypoint_list = s.waypoint_list := by
  unfold wrapWaypointIndex
  split
  · rfl
  · split <;> rfl

theorem wrapWaypointIndex_inv {s : WPState}
    (hlen : 1 ≤ s.waypoint_list.length)
    (h0 : 0 ≤ s.current_waypoint_index)
    (h1 : s.current_waypoint_index ≤ (s.waypoint_list.length : ℤ)) :
    Inv (wrapWaypointIndex s) := by
  have hne : (s.waypoint_list.length : ℤ) ≠ 0 := by omega
  unfold wrapWaypointIndex
  split
  · exact ⟨Int.emod_nonneg _ hne, Int.emod_lt_of_pos _ (by omega), hlen⟩
  · split
    next hge =>
      refine ⟨?_, ?_, hlen⟩ <;> dsimp only <;> omega
    next hge =>
      exact ⟨h0, by omega, hlen⟩

theorem pubNextWaypoint_isSome {s : WPState} (hinv : Inv s)
    (hwf : WellFormed s) : ∃ c, pubNextWaypoint s = some c := by
  obtain ⟨h0, h1, _⟩ := hinv
  obtain ⟨wp, hwp, hmem⟩ := pyGet_isSome h0 h1
  obtain ⟨c, hc⟩ := commandOfWaypoint_isSome (hwf wp hmem)
  refine ⟨c, ?_⟩
  rw [pubNextWaypoint, hwp]
  exact hc

theorem addInsert_inv {s : WPState} {index : ℤ} {wp : List ℝ}
    (hinv : Inv s) : Inv (addInsert s index wp).1 := by
  obtain ⟨h0, h1, h2⟩ := hinv
  have hlen := length_pyInsert s.waypoint_list index wp
  unfold addInsert
  refine ⟨?_, ?_, ?_⟩ <;> dsimp only
  · split <;> omega
  · rw [hlen]
    split <;> omega
  · omega

theorem addWaypointCallback_inv {s : WPState} {req : AddReq}
    (hinv : Inv s) : Inv (addWaypointCallback s req).1 := by
  unfold addWaypointCallback
  split
  · exact addInsert_inv hinv
  · split
    · exact hinv
    · exact addInsert_inv hinv

theorem removeWaypointCallback_inv {s : WPState} {index : ℤ}
    (hinv : Inv s) : Inv (removeWaypointCallback s index).1 := by
  obtain ⟨h0, h1, h2⟩ := hinv
  unfold removeWaypointCallback
  split
  · exact ⟨h0, h1, h2⟩
  next hlen1 =>
    split
    · exact ⟨h0, h1, h2⟩
    next hidx =>
      split
      · exact ⟨h0, h1, h2⟩
      next wl hdel =>
        have hwl := pyDel_length hdel
        split
        next heq =>
          have hinv1 : Inv (wrapWaypointIndex { s with waypoint_list := wl }) :=
            wrapWaypointIndex_inv (show 1 ≤ wl.length by omega) h0
              (show s.current_waypoint_index ≤ (wl.length : ℤ) by omega)
          dsimp only
          split
          · exact hinv1
          · exact hinv1
        next heq =>
          split
          next hge =>
            refine ⟨?_, ?_, ?_⟩ <;> dsimp only <;> omega
          next hge =>
            refine ⟨?_, ?_, ?_⟩ <;> dsimp only <;> omega

theorem insertIdx_get?_shift (x : α) :
    ∀ (n : ℕ) (l : List α) (m : ℕ), n ≤ m →
      (l.insertIdx n x).get? (m + 1) = l.get? m
  | 0, l, m, _ => by simp [List.insertIdx_zero]
  | n + 1, [], m, _ => by simp [List.insertIdx_succ_nil]
  | n + 1, a :: t, 0, h => by omega
  | n + 1, a :: t, m + 1, h => by
      rw [List.insertIdx_succ_cons]
      simpa using insertIdx_get?_shift x n t m (by omega)

theorem pyInsert_pyGet_shift {l : List α} {i : ℤ} {x : α} {ci : ℤ}
    (h0i : 0 ≤ i) (hle : i ≤ ci) (hci : ci < (l.length : ℤ)) :
    pyGet (pyInsert l i x) (ci + 1) = pyGet l ci := by
  have h0c : 0 ≤ ci := le_trans h0i hle
  have hpos : pyInsertPos l.length i = i.toNat := by
    unfold pyInsertPos
    rw [if_neg (by omega)]
    exact min_eq_left (by omega)
  have hlen := length_pyInsert l i x
  rw [pyGet_eq_get? (by omega) (by rw [hlen]; push_cast; omega),
    pyGet_eq_get? h0c hci]
  rw [show (ci + 1).toNat = ci.toNat + 1 by omega]
  unfold pyInsert
  rw [hpos]
  exact insertIdx_get?_shift x i.toNat l ci.toNat (by omega)

theorem addWaypointCallback_eq (s : WPState) (req : AddReq)
    (h : req.index ≤ (s.waypoint_list.length : ℤ)) :
    addWaypointCallback s req =
      addInsert s (insertionIndex s req) [req.x, req.y, req.z, req.psi] := by
  unfold addWaypointCallback insertionIndex
  by_cases hi : req.index = -1
  · rw [if_pos hi, if_pos hi]
  · rw [if_neg hi, if_neg hi, if_neg (not_lt.mpr h)]

theorem odometryCallback_inv {s : WPState} {msg : Odom}
    (hinv : Inv s) : Inv (odometryCallback s msg).1 := by
  obtain ⟨h0, h1, h2⟩ := hinv
  unfold odometryCallback
  split
  · exact ⟨h0, h1, h2⟩
  · split
    · dsimp only
      split
      · refine wrapWaypointIndex_inv h2 ?_ ?_ <;> dsimp only <;> omega
      · exact ⟨h0, h1, h2⟩
    · exact ⟨h0, h1, h2⟩

end Helpers

/-- C1: every state reachable from a non-empty initial list with
`current_waypoint_index = 0`, by any sequence of AddWaypoint,
RemoveWaypoint, ListWaypoints and position-sample steps, satisfies
`0 ≤ current_waypoint_index < len(waypoint_list)` and
`len(waypoint_list) ≥ 1`. -/
theorem C1_reachable_invariant {s : WPState} (h : Reachable s) : Inv s := by
  induction h with
  | init s hne h0 =>
      have hpos : 0 < s.waypoint_list.length := List.length_pos.mpr hne
      exact ⟨by omega, by omega, by omega⟩
  | step hs hst ih =>
      cases hst with
      | add req => exact addWaypointCallback_inv ih
      | remove index => exact removeWaypointCallback_inv ih
      | list => exact ih
      | odom msg => exact odometryCallback_inv ih

/-- Witness for C1: the invariant holds at a concrete reachable state. -/
theorem C1_reachable_invariant_witness : Inv sOne :=
  C1_reachable_invariant (Reachable.init sOne (by simp [sOne]) rfl)

/-- C3: on a state with `0 ≤ current_waypoint_index ≤ len` and `len ≥ 1`,
the shared wrap helper yields `current_waypoint_index % len` in cyclical
mode; in non-cyclical mode it clamps to `len - 1` when the index is at or
past the end and leaves it unchanged otherwise. -/
theorem C3_wrap_policy (s : WPState)
    (h0 : 0 ≤ s.current_waypoint_index)
    (h1 : s.current_waypoint_index ≤ (s.waypoint_list.length : ℤ))
    (hlen : 1 ≤ s.waypoint_list.length) :
    (wrapWaypointIndex s).current_waypoint_index =
      if s.cyclical_path then
        s.current_waypoint_index % (s.waypoint_list.length : ℤ)
      else if (s.waypoint_list.length : ℤ) ≤ s.current_waypoint_index then
        (s.waypoint_list.length : ℤ) - 1
      else s.current_waypoint_index := by
  unfold wrapWaypointIndex
  split
  next hc => rfl
  next hc =>
    split
    next hge =>
      dsimp only
      omega
    next hge => rfl

/-- Witness for C3: a non-cyclical state whose index just passed the end
clamps to the last position. -/
theorem C3_wrap_policy_witness :
    (wrapWaypointIndex sClamp).current_waypoint_index =
      if sClamp.cyclical_path then
        sClamp.current_waypoint_index % (sClamp.waypoint_list.length : ℤ)
      else if (sClamp.waypoint_list.length : ℤ) ≤
          sClamp.current_waypoint_index then
        (sClamp.waypoint_list.length : ℤ) - 1
      else sClamp.current_waypoint_index :=
  C3_wrap_policy sClamp (by decide) (by decide) (by decide)

/-- C7: RemoveWaypoint on a single-element list always takes the
"Cannot Remove Only Waypoint" branch, returning the unchanged length `1`,
leaving the state untouched and publishing nothing, for any requested
index. -/
theorem C7_remove_last_waypoint (s : WPState) (index : ℤ)
    (h : s.waypoint_list.length = 1) :
    removeWaypointCallback s index =
      (s, RemoveResult.cannotRemoveLast 1, none) := by
  unfold removeWaypointCallback
  rw [h, if_pos rfl]

/-- Witness for C7 at a concrete one-waypoint state and an arbitrary
index. -/
theorem C7_remove_last_waypoint_witness :
    removeWaypointCallback sOne 5 =
      (sOne, RemoveResult.cannotRemoveLast 1, none) :=
  C7_remove_last_waypoint sOne 5 rfl

/-- C5 (counterexample): at a one-waypoint state, AddWaypoint with index
`-2` — which neither satisfies `0 ≤ index ≤ len(WaypointList)` nor equals
the `-1` sentinel — does not fail with IndexOutOfRange: it inserts the
waypoint (Python negative-index semantics), mutating the list, and
returns the new length `2`. -/
theorem C5_counterexample :
    ¬(0 ≤ reqNeg.index) ∧ reqNeg.index ≠ -1 ∧
      (addWaypointCallback sOne reqNeg).2 = AddResult.ok 2 ∧
      (addWaypointCallback sOne reqNeg).1.waypoint_list.length =
        sOne.waypoint_list.length + 1 := by
  refine ⟨by decide, by decide, rfl, rfl⟩

/-- C5 (amended): an AddWaypoint request fails with IndexOutOfRange —
returning early with the waypoint list and current index unchanged —
exactly when the given index is strictly greater than the list length;
every other index (including the `-1` sentinel and other negative
indices, which insert with Python negative-index semantics) succeeds and
returns the new list length. -/
theorem C5_add_index_out_of_range (s : WPState) (req : AddReq) :
    ((s.waypoint_list.length : ℤ) < req.index →
      addWaypointCallback s req = (s, AddResult.indexOutOfRange)) ∧
    (req.index ≤ (s.waypoint_list.length : ℤ) →
      (addWaypointCallback s req).2 =
        AddResult.ok (s.waypoint_list.length + 1)) := by
  constructor
  · intro h
    unfold addWaypointCallback
    rw [if_neg (show ¬req.index = -1 by omega), if_pos (by omega)]
  · intro h
    rw [addWaypointCallback_eq s req h]
    unfold addInsert
    dsimp only
    rw [length_pyInsert]

/-- Witness for C5 (amended): a too-large index on a one-waypoint list is
rejected with the state unchanged. -/
theorem C5_add_index_out_of_range_witness :
    addWaypointCallback sOne reqBig = (sOne, AddResult.indexOutOfRange) :=
  (C5_add_index_out_of_range sOne reqBig).1 (by decide)

/-- C10: RemoveWaypoint with a negative index `i`, `-len ≤ i ≤ -1`, on a
list of length at least 2 does not fail with IndexOutOfRange: it deletes
the waypoint at position `len + i` (Python negative-index semantics) and
returns the new list length. -/
theorem C10_remove_negative_index (s : WPState) (index : ℤ)
    (hinv : Inv s) (hlen : 2 ≤ s.waypoint_list.length)
    (hlo : -(s.waypoint_list.length : ℤ) ≤ index) (hhi : index ≤ -1) :
    (removeWaypointCallback s index).2.1 =
      RemoveResult.ok (s.waypoint_list.length - 1) ∧
    (removeWaypointCallback s index).1.waypoint_list =
      s.waypoint_list.eraseIdx (index + s.waypoint_list.length).toNat := by
  obtain ⟨h0, h1, _⟩ := hinv
  have hdel : pyDel s.waypoint_list index =
      some (s.waypoint_list.eraseIdx
        (index + s.waypoint_list.length).toNat) := by
    unfold pyDel
    rw [pyIdxPos_of_neg (by omega) (by omega)]
    rfl
  have hlen2 := pyDel_length hdel
  unfold removeWaypointCallback
  rw [if_neg (show ¬s.waypoint_list.length = 1 by omega),
    if_neg (show ¬index ≥ (s.waypoint_list.length : ℤ) by omega), hdel]
  dsimp only
  rw [if_neg (show ¬index = s.current_waypoint_index by omega)]
  split
  next hge => exact ⟨by dsimp only; congr 1; omega, rfl⟩
  next hge => exact ⟨by dsimp only; congr 1; omega, rfl⟩

/-- Witness for C10: removing index `-1` from a two-waypoint state
deletes the last waypoint and returns length 1. -/
theorem C10_remove_negative_index_witness :
    (removeWaypointCallback sTwo (-1)).2.1 =
      RemoveResult.ok (sTwo.waypoint_list.length - 1) ∧
      (removeWaypointCallback sTwo (-1)).1.waypoint_list =
        sTwo.waypoint_list.eraseIdx
          ((-1 : ℤ) + sTwo.waypoint_list.length).toNat :=
  C10_remove_negative_index sTwo (-1) ⟨by decide, by decide, by decide⟩
    (by decide) (by decide) (by decide)

/-- C4: RemoveWaypoint at the current index on a list of length at least
2 succeeds: the waypoint at that index is deleted, the current index is
re-wrapped/clamped by the wrap policy, and a target command for the new
current waypoint is published immediately. -/
theorem C4_remove_current_republishes (s : WPState) (index : ℤ)
    (hinv : Inv s) (hwf : WellFormed s)
    (hlen : 2 ≤ s.waypoint_list.length)
    (hidx : index = s.current_waypoint_index) :
    (removeWaypointCallback s index).1 =
      wrapWaypointIndex
        { s with waypoint_list := s.waypoint_list.eraseIdx index.toNat } ∧
    (removeWaypointCallback s index).2.1 =
      RemoveResult.ok (s.waypoint_list.length - 1) ∧
    (removeWaypointCallback s index).2.2 =
      pubNextWaypoint (wrapWaypointIndex
        { s with waypoint_list := s.waypoint_list.eraseIdx index.toNat }) ∧
    ∃ c, (removeWaypointCallback s index).2.2 = some c := by
  obtain ⟨h0, h1, _⟩ := hinv
  have hdel : pyDel s.waypoint_list index =
      some (s.waypoint_list.eraseIdx index.toNat) :=
    pyDel_of_nonneg (by omega) (by omega)
  have herase := pyDel_length hdel
  have hinv1 : Inv (wrapWaypointIndex
      { s with waypoint_list := s.waypoint_list.eraseIdx index.toNat }) :=
    wrapWaypointIndex_inv
      (show 1 ≤ (s.waypoint_list.eraseIdx index.toNat).length by omega) h0
      (show s.current_waypoint_index ≤
        ((s.waypoint_list.eraseIdx index.toNat).length : ℤ) by omega)
  have hwf1 : WellFormed (wrapWaypointIndex
      { s with waypoint_list := s.waypoint_list.eraseIdx index.toNat }) := by
    intro wp hmem
    rw [wrapWaypointIndex_waypoint_list] at hmem
    exact hwf wp (List.eraseIdx_subset _ _ hmem)
  obtain ⟨c, hc⟩ := pubNextWaypoint_isSome hinv1 hwf1
  unfold removeWaypointCallback
  rw [if_neg (show ¬s.waypoint_list.length = 1 by omega),
    if_neg (show ¬index ≥ (s.waypoint_list.length : ℤ) by omega), hdel]
  dsimp only
  rw [if_pos hidx]
  rw [hc]
  dsimp only
  refine ⟨rfl, ?_, rfl, c, rfl⟩
  congr 1
  omega

/-- Witness for C4: spec scenario B — removing index 1 while targeting
index 1 on a three-waypoint list returns length 2 and republishes a
target command. -/
theorem C4_remove_current_republishes_witness :
    (removeWaypointCallback sThree 1).2.1 =
      RemoveResult.ok (sThree.waypoint_list.length - 1) ∧
      ∃ c, (removeWaypointCallback sThree 1).2.2 = some c := by
  have h := C4_remove_current_republishes sThree 1
    ⟨by decide, by decide, by decide⟩
    (by unfold WellFormed sThree; decide) (by decide) rfl
  exact ⟨h.2.1, h.2.2.2⟩

/-- C6: for every AddWaypoint call with a valid index (`0 ≤ index ≤ len`
or the `-1` append sentinel), the call succeeds returning the new length;
if the computed insertion index is at or before the current index, the
current index is incremented by exactly one and still refers to the same
waypoint; if it is after the current index (including an append via the
`-1` sentinel), the current index is unchanged. -/
theorem C6_add_preserves_target (s : WPState) (req : AddReq)
    (hinv : Inv s)
    (hdom : (0 ≤ req.index ∧ req.index ≤ (s.waypoint_list.length : ℤ)) ∨
      req.index = -1) :
    (addWaypointCallback s req).2 =
      AddResult.ok (s.waypoint_list.length + 1) ∧
    (insertionIndex s req ≤ s.current_waypoint_index →
      (addWaypointCallback s req).1.current_waypoint_index =
        s.current_waypoint_index + 1 ∧
      pyGet (addWaypointCallback s req).1.waypoint_list
          (addWaypointCallback s req).1.current_waypoint_index =
        pyGet s.waypoint_list s.current_waypoint_index) ∧
    (s.current_waypoint_index < insertionIndex s req →
      (addWaypointCallback s req).1.current_waypoint_index =
        s.current_waypoint_index) := by
  obtain ⟨h0, h1, hl1⟩ := hinv
  have hle : req.index ≤ (s.waypoint_list.length : ℤ) := by
    rcases hdom with ⟨_, h⟩ | h <;> omega
  rw [addWaypointCallback_eq s req hle]
  unfold addInsert
  dsimp only
  refine ⟨by rw [length_pyInsert], ?_, ?_⟩
  · intro hc
    rw [if_pos (show s.current_waypoint_index ≥ insertionIndex s req
      from hc)]
    refine ⟨rfl, ?_⟩
    have hii0 : 0 ≤ insertionIndex s req := by
      rcases hdom with ⟨hd0, _⟩ | hs
      · unfold insertionIndex
        rw [if_neg (by omega)]
        exact hd0
      · exfalso
        unfold insertionIndex at hc
        rw [if_pos hs] at hc
        omega
    exact pyInsert_pyGet_shift hii0 hc h1
  · intro hc
    rw [if_neg (show ¬s.current_waypoint_index ≥ insertionIndex s req
      by omega)]

/-- Witness for C6: spec scenario C — inserting at index 0 while
targeting index 0 bumps the index to 1, which still refers to the
original first waypoint, and returns the new length 4. -/
theorem C6_add_preserves_target_witness :
    (addWaypointCallback sFront reqFront).2 =
      AddResult.ok (sFront.waypoint_list.length + 1) ∧
    (addWaypointCallback sFront reqFront).1.current_waypoint_index =
      sFront.current_waypoint_index + 1 ∧
    pyGet (addWaypointCallback sFront reqFront).1.waypoint_list
        (addWaypointCallback sFront reqFront).1.current_waypoint_index =
      pyGet sFront.waypoint_list sFront.current_waypoint_index := by
  have h := C6_add_preserves_target sFront reqFront
    ⟨by decide, by decide, by decide⟩ (Or.inl ⟨by decide, by decide⟩)
  exact ⟨h.1, (h.2.1 (by decide)).1, (h.2.1 (by decide)).2⟩

/-- C8: on every position sample (in an invariant-satisfying, well-formed
state) the relative-pose observation is published, regardless of whether
advancement occurs, carrying `position.x`, `position.y`, the yaw
`atan2(2(wz + xy), 1 - 2(y² + z²))` derived from the unit quaternion, and
the sign-adjusted altitude `-position.z`. -/
theorem C8_relative_pose_fields (s : WPState) (msg : Odom)
    (hinv : Inv s) (hwf : WellFormed s) :
    (odometryCallback s msg).2.1 =
      some ⟨msg.px, msg.py, yawOfQuat msg.qw msg.qx msg.qy msg.qz,
        -msg.pz⟩ := by
  obtain ⟨h0, h1, _⟩ := hinv
  obtain ⟨wp, hwp, hmem⟩ := pyGet_isSome h0 h1
  obtain ⟨a, b, c, t, rfl⟩ := three_le_shape (hwf wp hmem)
  unfold odometryCallback
  rw [hwp]
  dsimp only
  rw [show (a :: b :: c :: t).take 3 = [a, b, c] from rfl]
  dsimp only
  split <;> rfl

/-- Witness for C8 at a concrete state and position sample. -/
theorem C8_relative_pose_fields_witness :
    (odometryCallback sOne msgW).2.1 =
      some ⟨msgW.px, msgW.py,
        yawOfQuat msgW.qw msgW.qx msgW.qy msgW.qz, -msgW.pz⟩ :=
  C8_relative_pose_fields sOne msgW ⟨by decide, by decide, by decide⟩
    (by unfold WellFormed sOne; decide)

/-- C2: on a position sample, if the Euclidean distance between the
sign-adjusted position `(x, y, -z)` and the first three components of the
waypoint at the current index is strictly below the threshold, the index
is incremented by one, the wrap policy is applied, and the new target
command is published; if the distance is at or above the threshold, the
state is unchanged and no target command is published — only the
relative-pose observation is emitted. -/
theorem C2_threshold_advance (s : WPState) (msg : Odom)
    (hinv : Inv s) (hwf : WellFormed s) (wp : List ℝ) (wx wy wz : ℝ)
    (hwp : pyGet s.waypoint_list s.current_waypoint_index = some wp)
    (h3 : wp.take 3 = [wx, wy, wz]) :
    (normErr (msg.px, msg.py, -msg.pz) wx wy wz < s.threshold →
      odometryCallback s msg =
        (wrapWaypointIndex { s with current_waypoint_index :=
            s.current_waypoint_index + 1 },
          some ⟨msg.px, msg.py,
            yawOfQuat msg.qw msg.qx msg.qy msg.qz, -msg.pz⟩,
          pubNextWaypoint (wrapWaypointIndex { s with
            current_waypoint_index := s.current_waypoint_index + 1 })) ∧
      ∃ c, pubNextWaypoint (wrapWaypointIndex { s with
          current_waypoint_index := s.current_waypoint_index + 1 }) =
        some c) ∧
    (s.threshold ≤ normErr (msg.px, msg.py, -msg.pz) wx wy wz →
      odometryCallback s msg =
        (s, some ⟨msg.px, msg.py,
          yawOfQuat msg.qw msg.qx msg.qy msg.qz, -msg.pz⟩, none)) := by
  obtain ⟨h0, h1, hl1⟩ := hinv
  have hpub : ∃ c, pubNextWaypoint (wrapWaypointIndex { s with
      current_waypoint_index := s.current_waypoint_index + 1 }) =
        some c := by
    refine pubNextWaypoint_isSome (wrapWaypointIndex_inv hl1
      (show (0 : ℤ) ≤ s.current_waypoint_index + 1 by omega)
      (show s.current_waypoint_index + 1 ≤ (s.waypoint_list.length : ℤ)
        by omega)) ?_
    intro w hmemw
    rw [wrapWaypointIndex_waypoint_list] at hmemw
    exact hwf w hmemw
  constructor
  · intro hlt
    refine ⟨?_, hpub⟩
    unfold odometryCallback
    rw [hwp]
    dsimp only
    rw [h3]
    dsimp only
    rw [if_pos hlt]
  · intro hge
    unfold odometryCallback
    rw [hwp]
    dsimp only
    rw [h3]
    dsimp only
    rw [if_neg (not_lt.mpr hge)]

/-- Witness for C2: spec scenario A shape — the vehicle sits exactly on
the only waypoint, so the sample advances the index (wrapping back to 0)
and republishes the target. -/
theorem C2_threshold_advance_witness :
    odometryCallback sOne msgW =
      (wrapWaypointIndex { sOne with current_waypoint_index :=
          sOne.current_waypoint_index + 1 },
        some ⟨msgW.px, msgW.py,
          yawOfQuat msgW.qw msgW.qx msgW.qy msgW.qz, -msgW.pz⟩,
        pubNextWaypoint (wrapWaypointIndex { sOne with
          current_waypoint_index := sOne.current_waypoint_index + 1 })) := by
  have h := C2_threshold_advance sOne msgW
    ⟨by decide, by decide, by decide⟩ (by unfold WellFormed sOne; decide)
    [0, 0, 10] 0 0 10 rfl rfl
  exact (h.1 (by norm_num [normErr, msgW, sOne, Real.sqrt_zero])).1

/-- C9 (counterexample): two states with different waypoint lists produce
the identical `listWaypoints` return value (`True`), so the returned
value does not carry the ordered waypoint sequence; the sequence is only
printed to the console. -/
theorem C9_counterexample :
    (listWaypoints sOne).2.2 = (listWaypoints sTwo).2.2 ∧
      sOne.waypoint_list ≠ sTwo.waypoint_list := by
  refine ⟨rfl, fun h => ?_⟩
  have hlen := congrArg List.length h
  simp [sOne, sTwo] at hlen

/-- C9 (amended): every ListWaypoints call prints the full ordered
waypoint list to the console, returns the constant `True`, always
succeeds, and leaves `waypoint_list` and `current_waypoint_index`
unchanged. -/
theorem C9_list_waypoints (s : WPState) :
    listWaypoints s = (s, s.waypoint_list, true) := rfl

end WaypointManager
